import Mathlib

/-!
Shallow embedding of the octaview/kanban service core: the data model
(users, boards, board shares, columns, tasks, labels, the task-label join),
the repository operations on them (GORM queries modelled as pure functions
over an explicit database state), and the HTTP handlers' decision logic
(modelled from the authenticated point onward; a `gin` JSON reply is
modelled by its status class).  Identifiers are `Nat` stand-ins for UUIDs;
`position` fields are `Int` like Go's `int`.
-/

namespace Kanban

/-- model.User (src/internal/model/user.go). -/
structure User where
  id : Nat
  email : String
  hashedPassword : String
  name : String
deriving DecidableEq, Repr

/-- model.Board (src/internal/model/board.go). -/
structure Board where
  id : Nat
  title : String
  description : String
  ownerID : Nat
deriving DecidableEq, Repr

/-- model.BoardShare (src/unnamed/part_006): row of board_shares with role string. -/
structure BoardShare where
  id : Nat
  boardID : Nat
  userID : Nat
  role : String
deriving DecidableEq, Repr

/-- model.Column (src/internal/model/column.go). -/
structure Column where
  id : Nat
  boardID : Nat
  title : String
  position : Int
deriving DecidableEq, Repr

/-- model.Task (src/internal/model/task.go); dueDate is an abstract timestamp. -/
structure Task where
  id : Nat
  columnID : Nat
  title : String
  description : String
  assignedTo : Option Nat
  createdBy : Nat
  dueDate : Option Int
  position : Int
deriving DecidableEq, Repr

/-- model.Label (src/internal/model/label.go). -/
structure Label where
  id : Nat
  boardID : Nat
  name : String
  color : String
deriving DecidableEq, Repr

/-- model.RoleViewer (src/unnamed/part_006). -/
def RoleViewer : String := "viewer"

/-- model.RoleEditor (src/unnamed/part_006). -/
def RoleEditor : String := "editor"

/-- The relational store: one list per table (rows in insertion order), plus
the task_labels join table as (task_id, label_id) pairs. -/
structure DB where
  users : List User
  boards : List Board
  shares : List BoardShare
  columns : List Column
  tasks : List Task
  labels : List Label
  taskLabels : List (Nat × Nat)
deriving DecidableEq, Repr

/-- Errors surfaced by the repositories (repository errors distinct from "not
found treated as nil"); TaskRepository declares ErrTaskNotFound
(src/unnamed/part_003) and LabelRepository ErrLabelNotFound (src/unnamed/part_004). -/
inductive RepoError where
  | taskNotFound
  | labelNotFound
deriving DecidableEq, Repr

/-- Modelled from the spec: BoardRepository.GetByID is not under src/ (only its
callers are); per spec §4.1 step 1 ("Load the board by ID. If absent, treat as
not-found") and the handlers' `board == nil` checks it is a by-id lookup that
yields nothing when the row is absent. -/
def BoardRepository.GetByID (db : DB) (id : Nat) : Option Board :=
  db.boards.find? (fun b => b.id == id)

/-- ColumnRepository.GetByID (src/internal/repository/board_repository.go):
`First` by id, nil on ErrRecordNotFound. -/
def ColumnRepository.GetByID (db : DB) (id : Nat) : Option Column :=
  db.columns.find? (fun c => c.id == id)

/-- TaskRepository.GetByID (src/unnamed/part_003): `First` by id,
ErrTaskNotFound when absent; here the error case is the `none` result. -/
def TaskRepository.GetByID (db : DB) (id : Nat) : Option Task :=
  db.tasks.find? (fun t => t.id == id)

/-- LabelRepository.GetByID (src/unnamed/part_004). -/
def LabelRepository.GetByID (db : DB) (id : Nat) : Option Label :=
  db.labels.find? (fun l => l.id == id)

/-- The `board_id = ? AND user_id = ?` share lookup used by
BoardShareRepository.ShareBoard, GetUserRole and CheckAccess (src/unnamed/part_005). -/
def findShare (db : DB) (boardID userID : Nat) : Option BoardShare :=
  db.shares.find? (fun s => s.boardID == boardID && s.userID == userID)

/-- BoardRepository.CountOwned (src/internal/repository/board_repository.go):
COUNT of boards with the given owner_id. -/
def BoardRepository.CountOwned (db : DB) (ownerID : Nat) : Nat :=
  (db.boards.filter (fun b => b.ownerID == ownerID)).length

/-- BoardShareRepository.CheckAccess (src/unnamed/part_005, lines 99-138):
owner row lookup first (`id = ? AND owner_id = ?`), then the share row; a
viewer requirement accepts any stored role, otherwise the stored role must be
editor. -/
def BoardShareRepository.CheckAccess (db : DB) (boardID userID : Nat)
    (requiredRole : String) : Bool :=
  if db.boards.any (fun b => b.id == boardID && b.ownerID == userID) then
    true
  else
    match findShare db boardID userID with
    | none => false
    | some share =>
      if requiredRole == RoleViewer then true
      else share.role == RoleEditor

/-- BoardShareRepository.ShareBoard (src/unnamed/part_005, lines 21-48):
inside one transaction, look up the (board, user) share; if present, `Save`
the loaded row with the new role (an update keyed on the row's primary key);
otherwise insert a fresh row (its generated id is the `newID` argument). -/
def BoardShareRepository.ShareBoard (db : DB) (boardID userID : Nat)
    (role : String) (newID : Nat) : DB :=
  match findShare db boardID userID with
  | some existing =>
    { db with shares := db.shares.map (fun s =>
        if s.id = existing.id then { existing with role := role } else s) }
  | none =>
    { db with shares := db.shares ++ [⟨newID, boardID, userID, role⟩] }

/-- ColumnRepository.Delete (src/internal/repository/board_repository.go,
lines 78-80): a bare `db.Delete(&model.Column{}, id)` — the row is removed and
nothing else is touched. -/
def ColumnRepository.Delete (db : DB) (id : Nat) : DB :=
  { db with columns := db.columns.filter (fun c => c.id != id) }

/-- ColumnRepository.GetMaxPosition (src/internal/repository/board_repository.go):
`SELECT COALESCE(MAX(position), 0)` over the board's columns. -/
def ColumnRepository.GetMaxPosition (db : DB) (boardID : Nat) : Int :=
  match (db.columns.filter (fun c => c.boardID == boardID)).map Column.position with
  | [] => 0
  | p :: ps => ps.foldl max p

/-- TaskRepository.GetByColumnID (src/unnamed/part_003): the column's tasks;
only its row multiset matters here, so the ORDER BY is left implicit. -/
def TaskRepository.GetByColumnID (db : DB) (columnID : Nat) : List Task :=
  db.tasks.filter (fun t => t.columnID == columnID)

/-- TaskRepository.Delete (src/unnamed/part_003, lines 130-139): a bare
`DELETE ... WHERE id = ?`; ErrTaskNotFound when no row was affected.  No
position of any remaining task is touched. -/
def TaskRepository.Delete (db : DB) (id : Nat) : Except RepoError DB :=
  if db.tasks.any (fun t => t.id == id) then
    .ok { db with tasks := db.tasks.filter (fun t => t.id != id) }
  else
    .error .taskNotFound

/-- TaskRepository.MoveTask (src/unnamed/part_003, lines 142-201): in one
transaction, load the task; if the column differs, close the gap in the old
column (`position > old` gets -1) and open a slot in the new one
(`position >= new` gets +1); within one column shift the strict in-between
range; finally `Save` the loaded struct with its column/position set to the
targets. -/
def TaskRepository.MoveTask (db : DB) (taskID columnID : Nat)
    (newPosition : Int) : Except RepoError DB :=
  match TaskRepository.GetByID db taskID with
  | none => .error .taskNotFound
  | some task =>
    let oldColumnID := task.columnID
    let oldPosition := task.position
    let shifted : List Task :=
      if oldColumnID ≠ columnID then
        (db.tasks.map (fun t =>
          if t.columnID = oldColumnID ∧ t.position > oldPosition then
            { t with position := t.position - 1 } else t)).map (fun t =>
          if t.columnID = columnID ∧ t.position ≥ newPosition then
            { t with position := t.position + 1 } else t)
      else if oldPosition < newPosition then
        db.tasks.map (fun t =>
          if t.columnID = columnID ∧ oldPosition < t.position ∧ t.position ≤ newPosition then
            { t with position := t.position - 1 } else t)
      else if oldPosition > newPosition then
        db.tasks.map (fun t =>
          if t.columnID = columnID ∧ newPosition ≤ t.position ∧ t.position < oldPosition then
            { t with position := t.position + 1 } else t)
      else
        db.tasks
    .ok { db with tasks := shifted.map (fun t =>
        if t.id = taskID then { task with columnID := columnID, position := newPosition } else t) }

/-- TaskRepository.AddLabel (src/unnamed/part_003, lines 204-209):
`INSERT INTO task_labels ... ON CONFLICT DO NOTHING`; task_labels has primary
key (task_id, label_id), so the conflict is exactly a pre-existing pair. -/
def TaskRepository.AddLabel (db : DB) (taskID labelID : Nat) : DB :=
  if (taskID, labelID) ∈ db.taskLabels then db
  else { db with taskLabels := db.taskLabels ++ [(taskID, labelID)] }

/-- The status class of the handler's JSON reply; internalError covers both
explicit 500 replies and a nil-pointer panic recovered by the framework. -/
inductive HStatus where
  | ok
  | created
  | badRequest
  | unauthorized
  | forbidden
  | notFound
  | internalError
deriving DecidableEq, Repr

/-- handler.MaxBoardsPerUser (src/internal/handler/board_handler.go). -/
def MaxBoardsPerUser : Nat := 5

/-- BoardHandler.Create (src/internal/handler/board_handler.go, lines 60-108):
count the principal's owned boards first; at or above the cap reply 403
Forbidden before any write, otherwise insert the board (its generated id is
`newID`). -/
def BoardHandler.Create (db : DB) (p : Nat) (title description : String)
    (newID : Nat) : HStatus × DB :=
  if MaxBoardsPerUser ≤ BoardRepository.CountOwned db p then
    (.forbidden, db)
  else
    (.created, { db with boards := db.boards ++ [⟨newID, title, description, p⟩] })

/-- BoardHandler.GetByID (src/internal/handler/board_handler.go, lines 175-226):
absent board means 404; the owner is served directly; anyone else goes through
CheckAccess at viewer level, denial meaning 403. -/
def BoardHandler.GetByID (db : DB) (p boardID : Nat) : HStatus :=
  match BoardRepository.GetByID db boardID with
  | none => .notFound
  | some board =>
    if board.ownerID ≠ p then
      if BoardShareRepository.CheckAccess db boardID p RoleViewer then .ok
      else .forbidden
    else .ok

/-- ColumnHandler.checkBoardAccess (src/unnamed/part_011, lines 53-65): a
missing board yields (false, nil), otherwise the repository CheckAccess. -/
def ColumnHandler.checkBoardAccess (db : DB) (boardID userID : Nat)
    (requiredRole : String) : Bool :=
  match BoardRepository.GetByID db boardID with
  | none => false
  | some _ => BoardShareRepository.CheckAccess db boardID userID requiredRole

/-- ColumnHandler.Create (src/unnamed/part_011, lines 68-139): editor access
required; a zero (i.e. omitted) request position is replaced by
GetMaxPosition + 1; the column is then inserted with the generated `newID`. -/
def ColumnHandler.Create (db : DB) (p boardID : Nat) (title : String)
    (reqPosition : Int) (newID : Nat) : HStatus × DB :=
  if ColumnHandler.checkBoardAccess db boardID p RoleEditor then
    let position :=
      if reqPosition = 0 then ColumnRepository.GetMaxPosition db boardID + 1
      else reqPosition
    (.created, { db with columns := db.columns ++ [⟨newID, boardID, title, position⟩] })
  else
    (.forbidden, db)

/-- TaskHandler.Create (src/unnamed/part_009, lines 101-202): resolve the
column (404 when absent) and its board, require editor access or ownership,
then create the task; with no explicit position it is placed at the count of
the column's current tasks. -/
def TaskHandler.Create (db : DB) (p columnID : Nat) (title description : String)
    (dueDate : Option Int) (reqPosition : Option Int) (newID : Nat) : HStatus × DB :=
  match ColumnRepository.GetByID db columnID with
  | none => (.notFound, db)
  | some column =>
    match BoardRepository.GetByID db column.boardID with
    | none => (.internalError, db)
    | some board =>
      let hasAccess := BoardShareRepository.CheckAccess db column.boardID p RoleEditor
      if hasAccess = false ∧ board.ownerID ≠ p then
        (.forbidden, db)
      else
        let position : Int :=
          match reqPosition with
          | some q => q
          | none => ((TaskRepository.GetByColumnID db columnID).length : Int)
        (.created, { db with tasks :=
          db.tasks ++ [⟨newID, columnID, title, description, none, p, dueDate, position⟩] })

/-- TaskHandler.Delete (src/unnamed/part_009, lines 591-650): editor access,
ownership, or being the task's creator authorizes the delete; then the bare
repository delete runs. -/
def TaskHandler.Delete (db : DB) (p taskID : Nat) : HStatus × DB :=
  match TaskRepository.GetByID db taskID with
  | none => (.notFound, db)
  | some task =>
    match ColumnRepository.GetByID db task.columnID with
    | none => (.internalError, db)
    | some column =>
      match BoardRepository.GetByID db column.boardID with
      | none => (.internalError, db)
      | some board =>
        let hasAccess := BoardShareRepository.CheckAccess db column.boardID p RoleEditor
        if hasAccess = false ∧ board.ownerID ≠ p ∧ task.createdBy ≠ p then
          (.forbidden, db)
        else
          match TaskRepository.Delete db taskID with
          | .ok db' => (.ok, db')
          | .error _ => (.internalError, db)

/-- TaskHandler.MoveTask (src/unnamed/part_009, lines 668-757): editor access
or ownership required (no creator bypass); when the target column differs it
must exist (404) and lie on the same board (400 Bad Request), and only then
does the repository MoveTask run. -/
def TaskHandler.MoveTask (db : DB) (p taskID : Nat) (reqColumnID : Nat)
    (reqPosition : Int) : HStatus × DB :=
  match TaskRepository.GetByID db taskID with
  | none => (.notFound, db)
  | some task =>
    match ColumnRepository.GetByID db task.columnID with
    | none => (.internalError, db)
    | some column =>
      match BoardRepository.GetByID db column.boardID with
      | none => (.internalError, db)
      | some board =>
        let hasAccess := BoardShareRepository.CheckAccess db column.boardID p RoleEditor
        if hasAccess = false ∧ board.ownerID ≠ p then
          (.forbidden, db)
        else
          let crossCheck : Option HStatus :=
            if reqColumnID ≠ task.columnID then
              match ColumnRepository.GetByID db reqColumnID with
              | none => some .notFound
              | some targetColumn =>
                if targetColumn.boardID ≠ column.boardID then some .badRequest
                else none
            else none
          match crossCheck with
          | some s => (s, db)
          | none =>
            match TaskRepository.MoveTask db taskID reqColumnID reqPosition with
            | .ok db' => (.ok, db')
            | .error _ => (.internalError, db)

/-- TaskHandler.Update (src/unnamed/part_009, lines 450-574): editor access or
ownership required (checked before the body is used); a changed column must
exist on the same board; a column or position change is routed through
MoveTask (which reloads the task, so the bundled field edits are dropped on
that path), otherwise the loaded struct is saved with the new fields. -/
def TaskHandler.Update (db : DB) (p taskID : Nat) (reqTitle reqDescription : String)
    (reqColumnID : Nat) (reqDueDate : Option Int) (reqPosition : Option Int) :
    HStatus × DB :=
  match TaskRepository.GetByID db taskID with
  | none => (.notFound, db)
  | some task =>
    match ColumnRepository.GetByID db task.columnID with
    | none => (.internalError, db)
    | some column =>
      match BoardRepository.GetByID db column.boardID with
      | none => (.internalError, db)
      | some board =>
        let hasAccess := BoardShareRepository.CheckAccess db column.boardID p RoleEditor
        if hasAccess = false ∧ board.ownerID ≠ p then
          (.forbidden, db)
        else
          let saveEdited : HStatus × DB :=
            (.ok, { db with tasks := db.tasks.map (fun t =>
              if t.id = taskID then
                { task with title := reqTitle, description := reqDescription,
                            dueDate := reqDueDate }
              else t) })
          let runMove (target : Nat) : HStatus × DB :=
            let position := match reqPosition with
              | some q => q
              | none => task.position
            match TaskRepository.MoveTask db taskID target position with
            | .ok db' => (.ok, db')
            | .error _ => (.internalError, db)
          if reqColumnID ≠ task.columnID then
            match ColumnRepository.GetByID db reqColumnID with
            | none => (.notFound, db)
            | some newColumn =>
              if newColumn.boardID ≠ column.boardID then (.badRequest, db)
              else runMove reqColumnID
          else
            match reqPosition with
            | some q => if q ≠ task.position then runMove task.columnID else saveEdited
            | none => saveEdited

/-- TaskHandler.AddLabel (src/unnamed/part_009, lines 951-1017): resolve the
task, its column and board, require editor access or ownership, then insert
into task_labels; the label itself is never loaded and its board is never
compared to the task's. -/
def TaskHandler.AddLabel (db : DB) (p taskID labelID : Nat) : HStatus × DB :=
  match TaskRepository.GetByID db taskID with
  | none => (.notFound, db)
  | some task =>
    match ColumnRepository.GetByID db task.columnID with
    | none => (.internalError, db)
    | some column =>
      match BoardRepository.GetByID db column.boardID with
      | none => (.internalError, db)
      | some board =>
        let hasAccess := BoardShareRepository.CheckAccess db column.boardID p RoleEditor
        if hasAccess = false ∧ board.ownerID ≠ p then
          (.forbidden, db)
        else
          (.ok, TaskRepository.AddLabel db taskID labelID)

/-- The Move algorithm as the spec words it, as a single per-item update
(spec §4.2): the moved item's container and position are set to the target
values; on a cross-container move the source container's items after the old
position close the gap and the target container's items at or past the target
position open a slot; within one container the strict in-between range shifts
down (old < new) or up (old > new); an unchanged position leaves positions as
they were. -/
def MoveTaskSpecShift (moved : Task) (targetColumnID : Nat)
    (targetPosition : Int) (t : Task) : Task :=
  if t.id = moved.id then
    { t with columnID := targetColumnID, position := targetPosition }
  else if moved.columnID ≠ targetColumnID then
    if t.columnID = moved.columnID ∧ t.position > moved.position then
      { t with position := t.position - 1 }
    else if t.columnID = targetColumnID ∧ t.position ≥ targetPosition then
      { t with position := t.position + 1 }
    else t
  else if moved.position < targetPosition then
    if t.columnID = targetColumnID ∧ moved.position < t.position ∧ t.position ≤ targetPosition then
      { t with position := t.position - 1 }
    else t
  else if moved.position > targetPosition then
    if t.columnID = targetColumnID ∧ targetPosition ≤ t.position ∧ t.position < moved.position then
      { t with position := t.position + 1 }
    else t
  else t

/-! Concrete database states used as test inputs. -/

/-- Board 10 owned by user 1 with three columns at positions 0, 1, 2. -/
def dbColumns : DB :=
  { users := [⟨1, "o@x", "h", "Owner"⟩]
    boards := [⟨10, "B", "", 1⟩]
    shares := []
    columns := [⟨1, 10, "todo", 0⟩, ⟨2, 10, "doing", 1⟩, ⟨3, 10, "done", 2⟩]
    tasks := []
    labels := []
    taskLabels := [] }

/-- Board 10 owned by user 1 with no columns yet. -/
def dbNoColumns : DB :=
  { users := [⟨1, "o@x", "h", "Owner"⟩]
    boards := [⟨10, "B", "", 1⟩]
    shares := []
    columns := []
    tasks := []
    labels := []
    taskLabels := [] }

/-- Two boards of owner 9: a task on board 1 and a label on board 2. -/
def dbLabelMismatch : DB :=
  { users := [⟨9, "o@x", "h", "Owner"⟩]
    boards := [⟨1, "A", "", 9⟩, ⟨2, "B", "", 9⟩]
    shares := []
    columns := [⟨11, 1, "todo", 0⟩]
    tasks := [⟨21, 11, "t", "", none, 9, none, 0⟩]
    labels := [⟨31, 2, "urgent", "red"⟩]
    taskLabels := [] }

/-- User 1 already owns five boards. -/
def dbFiveBoards : DB :=
  { users := [⟨1, "o@x", "h", "Owner"⟩]
    boards := [⟨10, "a", "", 1⟩, ⟨11, "b", "", 1⟩, ⟨12, "c", "", 1⟩,
               ⟨13, "d", "", 1⟩, ⟨14, "e", "", 1⟩]
    shares := []
    columns := []
    tasks := []
    labels := []
    taskLabels := [] }

/-- Board 1 owned by user 1, shared with user 2 as viewer; user 3 has nothing. -/
def dbOneShare : DB :=
  { users := [⟨1, "o@x", "h", "O"⟩, ⟨2, "v@x", "h", "V"⟩, ⟨3, "n@x", "h", "N"⟩]
    boards := [⟨1, "B", "", 1⟩]
    shares := [⟨100, 1, 2, "viewer"⟩]
    columns := []
    tasks := []
    labels := []
    taskLabels := [] }

/-- Spec §8 Scenario B: column 1 holds tasks at [0,1,2], column 2 holds two
tasks at [0,1]; task 13 sits at position 2 of column 1. -/
def dbScenarioB : DB :=
  { users := [⟨1, "o@x", "h", "Owner"⟩]
    boards := [⟨10, "B", "", 1⟩]
    shares := []
    columns := [⟨1, 10, "A", 0⟩, ⟨2, 10, "B", 1⟩]
    tasks := [⟨11, 1, "a0", "", none, 1, none, 0⟩, ⟨12, 1, "a1", "", none, 1, none, 1⟩,
              ⟨13, 1, "a2", "", none, 1, none, 2⟩, ⟨21, 2, "b0", "", none, 1, none, 0⟩,
              ⟨22, 2, "b1", "", none, 1, none, 1⟩]
    labels := []
    taskLabels := [] }

/-- Two boards of owner 1 with one column each; a task sits on board 1. -/
def dbTwoBoards : DB :=
  { users := [⟨1, "o@x", "h", "Owner"⟩]
    boards := [⟨1, "A", "", 1⟩, ⟨2, "B", "", 1⟩]
    shares := []
    columns := [⟨11, 1, "a", 0⟩, ⟨12, 2, "b", 0⟩]
    tasks := [⟨21, 11, "t", "", none, 1, none, 0⟩]
    labels := []
    taskLabels := [] }

/-- Board 1 owned by user 1; task 21 was created by user 5, who is neither
the owner nor the holder of any share. -/
def dbCreatorOnly : DB :=
  { users := [⟨1, "o@x", "h", "Owner"⟩, ⟨5, "c@x", "h", "Creator"⟩]
    boards := [⟨1, "B", "", 1⟩]
    shares := []
    columns := [⟨11, 1, "todo", 0⟩]
    tasks := [⟨21, 11, "t", "", none, 5, none, 0⟩]
    labels := []
    taskLabels := [] }

/-- Board 1 owned by user 1 with no shares at all. -/
def dbNoShares : DB :=
  { users := [⟨1, "o@x", "h", "O"⟩, ⟨2, "t@x", "h", "T"⟩]
    boards := [⟨1, "B", "", 1⟩]
    shares := []
    columns := []
    tasks := []
    labels := []
    taskLabels := [] }

/-! Theorems. -/

/-- C1, counterexample: deleting the column at position 1 of a board whose
columns sit at [0,1,2] leaves the remaining columns at positions [0,2], not
at the claimed gap-free [0,1]: the repository delete never decrements the
later positions. -/
theorem claim1_counterexample :
    ((ColumnRepository.Delete dbColumns 2).columns.map Column.position = [0, 2]) ∧
    ¬ ((ColumnRepository.Delete dbColumns 2).columns.map Column.position = [0, 1]) := by
  decide

/-- C1, amended: deleting a column or a task removes exactly the rows with the
deleted id and leaves every remaining row — in particular its position —
unchanged, so the gap left at the deleted position persists. -/
theorem claim1_amended (db : DB) (cid tid : Nat) :
    (∀ c : Column, c ∈ (ColumnRepository.Delete db cid).columns ↔
       (c ∈ db.columns ∧ c.id ≠ cid)) ∧
    (∀ db' : DB, TaskRepository.Delete db tid = .ok db' →
       ∀ t : Task, t ∈ db'.tasks ↔ (t ∈ db.tasks ∧ t.id ≠ tid)) := by
  constructor
  · intro c
    simp [ColumnRepository.Delete, List.mem_filter, bne_iff_ne]
  · intro db' h t
    unfold TaskRepository.Delete at h
    split at h
    · cases h
      simp [List.mem_filter, bne_iff_ne]
    · cases h

/-- C1, witness for the amended statement: the column at position 0 survives
the delete of column 2 unchanged. -/
theorem claim1_amended_witness :
    (⟨1, 10, "todo", 0⟩ : Column) ∈ (ColumnRepository.Delete dbColumns 2).columns :=
  ((claim1_amended dbColumns 2 0).1 ⟨1, 10, "todo", 0⟩).mpr ⟨by decide, by decide⟩

/-- C6, counterexample: on a board with no columns, creating a column without
an explicit position places it at position 1 (COALESCE(MAX(position),0)+1),
not at the sibling count 0 that the claim requires. -/
theorem claim6_counterexample :
    dbNoColumns.columns.length = 0 ∧
    ((ColumnHandler.Create dbNoColumns 1 10 "todo" 0 7).2.columns.map Column.position = [1]) ∧
    ¬ ((ColumnHandler.Create dbNoColumns 1 10 "todo" 0 7).2.columns.map Column.position = [0]) := by
  decide

/-- C6, amended: a task created without an explicit position is appended at
the count of the column's existing tasks, but a column created without an
explicit position is appended at GetMaxPosition + 1, i.e. one past the
largest existing position (1 on an empty board), which is not in general the
sibling count. -/
theorem claim6_amended (db : DB) (p cid bid nid : Nat) (title descr : String)
    (dd : Option Int) (column : Column) (board : Board)
    (hCol : ColumnRepository.GetByID db cid = some column)
    (hBoard : BoardRepository.GetByID db column.boardID = some board)
    (hAcc : BoardShareRepository.CheckAccess db column.boardID p RoleEditor = true)
    (hAccB : ColumnHandler.checkBoardAccess db bid p RoleEditor = true) :
    TaskHandler.Create db p cid title descr dd none nid =
      (.created, { db with tasks := db.tasks ++
        [⟨nid, cid, title, descr, none, p, dd,
          ((TaskRepository.GetByColumnID db cid).length : Int)⟩] }) ∧
    ColumnHandler.Create db p bid title 0 nid =
      (.created, { db with columns := db.columns ++
        [⟨nid, bid, title, ColumnRepository.GetMaxPosition db bid + 1⟩] }) := by
  constructor
  · unfold TaskHandler.Create
    simp [hCol, hBoard, hAcc]
  · unfold ColumnHandler.Create
    simp [hAccB]

/-- C6, witness for the amended statement: on Scenario B's board the owner
creates a task in a column already holding three tasks (it lands at position
3, the sibling count) and a column on a board whose columns sit at [0,1] (it
lands at max+1 = 2). -/
theorem claim6_amended_witness :
    TaskHandler.Create dbScenarioB 1 1 "new" "" none none 99 =
      (.created, { dbScenarioB with tasks := dbScenarioB.tasks ++
        [⟨99, 1, "new", "", none, 1, none, 3⟩] }) ∧
    ColumnHandler.Create dbScenarioB 1 10 "new" 0 99 =
      (.created, { dbScenarioB with columns := dbScenarioB.columns ++
        [⟨99, 10, "new", 2⟩] }) := by
  have h := claim6_amended dbScenarioB 1 1 10 99 "new" "" none ⟨1, 10, "A", 0⟩ ⟨10, "B", "", 1⟩
    (by decide) (by decide) (by decide) (by decide)
  exact ⟨h.1, h.2⟩

/-- C7: evaluating TaskHandler.AddLabel at a cross-board input: the label
lives on board 2 while the task's column lives on board 1, yet the handler
replies ok and the join row is written — the claimed (and spec-mandated)
rejection is absent from the code. -/
theorem claim7_code_eval :
    (TaskHandler.AddLabel dbLabelMismatch 9 21 31).1 = HStatus.ok ∧
    (21, 31) ∈ (TaskHandler.AddLabel dbLabelMismatch 9 21 31).2.taskLabels ∧
    (LabelRepository.GetByID dbLabelMismatch 31).map Label.boardID = some 2 ∧
    (ColumnRepository.GetByID dbLabelMismatch 11).map Column.boardID = some 1 ∧
    (2 : Nat) ≠ 1 := by
  decide

/-- C8: a principal owning at least five boards gets Forbidden and an
unchanged database; below the cap the board is created and the owned count
grows by exactly one. -/
theorem claim8 (db : DB) (p nid : Nat) (title descr : String) :
    (MaxBoardsPerUser ≤ BoardRepository.CountOwned db p →
       BoardHandler.Create db p title descr nid = (.forbidden, db)) ∧
    (BoardRepository.CountOwned db p < MaxBoardsPerUser →
       (BoardHandler.Create db p title descr nid).1 = .created ∧
       BoardRepository.CountOwned (BoardHandler.Create db p title descr nid).2 p =
         BoardRepository.CountOwned db p + 1) := by
  constructor
  · intro h
    unfold BoardHandler.Create
    rw [if_pos h]
  · intro h
    unfold BoardHandler.Create
    rw [if_neg (by omega)]
    refine ⟨rfl, ?_⟩
    unfold BoardRepository.CountOwned
    simp [List.filter_append]

/-- C8, witness: user 1 owns five boards; a sixth creation attempt is
Forbidden and leaves the database untouched. -/
theorem claim8_witness :
    BoardHandler.Create dbFiveBoards 1 "sixth" "" 15 = (.forbidden, dbFiveBoards) :=
  (claim8 dbFiveBoards 1 15 "sixth" "").1 (by decide)

/-- Denial lemma: with no owning board row and no share row, CheckAccess
denies every required role. -/
theorem checkAccess_eq_false (db : DB) (bid p : Nat) (role : String)
    (hOwn : ∀ b ∈ db.boards, b.id = bid → b.ownerID ≠ p)
    (hShare : findShare db bid p = none) :
    BoardShareRepository.CheckAccess db bid p role = false := by
  have hAny : db.boards.any (fun b => b.id == bid && b.ownerID == p) = false := by
    rw [List.any_eq_false]
    intro b hb
    simp only [Bool.and_eq_true, beq_iff_eq, not_and]
    intro h1 h2
    exact hOwn b hb h1 h2
  unfold BoardShareRepository.CheckAccess
  rw [hAny, hShare]
  rfl

/-- C2: CheckAccess resolves as claimed — an owner row means unconditional
allowance; without one, no share row means denial, while a share row passes a
viewer-level check outright and passes an editor-level check exactly when the
stored role is editor; hence viewer-level denial entails editor-level denial. -/
theorem claim2 (db : DB) (bid p : Nat) :
    ((∃ b ∈ db.boards, b.id = bid ∧ b.ownerID = p) →
       ∀ role, BoardShareRepository.CheckAccess db bid p role = true) ∧
    ((∀ b ∈ db.boards, b.id = bid → b.ownerID ≠ p) →
       (findShare db bid p = none →
          ∀ role, BoardShareRepository.CheckAccess db bid p role = false) ∧
       (∀ s, findShare db bid p = some s →
          BoardShareRepository.CheckAccess db bid p RoleViewer = true ∧
          (BoardShareRepository.CheckAccess db bid p RoleEditor = true ↔
             s.role = RoleEditor))) ∧
    (BoardShareRepository.CheckAccess db bid p RoleViewer = false →
       BoardShareRepository.CheckAccess db bid p RoleEditor = false) := by
  refine ⟨?_, ?_, ?_⟩
  · rintro ⟨b, hb, h1, h2⟩ role
    have hAny : db.boards.any (fun b => b.id == bid && b.ownerID == p) = true :=
      List.any_eq_true.mpr ⟨b, hb, by simp [h1, h2]⟩
    unfold BoardShareRepository.CheckAccess
    rw [hAny]
    rfl
  · intro hOwn
    have hAny : db.boards.any (fun b => b.id == bid && b.ownerID == p) = false := by
      rw [List.any_eq_false]
      intro b hb
      simp only [Bool.and_eq_true, beq_iff_eq, not_and]
      intro h1 h2
      exact hOwn b hb h1 h2
    refine ⟨fun hS role => checkAccess_eq_false db bid p role hOwn hS, ?_⟩
    intro s hS
    have hVE : (RoleEditor == RoleViewer) = false := by decide
    constructor
    · unfold BoardShareRepository.CheckAccess
      rw [hAny, hS]
      simp
    · unfold BoardShareRepository.CheckAccess
      rw [hAny, hS]
      simp [hVE, beq_iff_eq]
  · intro hV
    cases hAny : db.boards.any (fun b => b.id == bid && b.ownerID == p) with
    | true =>
      exfalso
      unfold BoardShareRepository.CheckAccess at hV
      rw [hAny] at hV
      simp at hV
    | false =>
      cases hS : findShare db bid p with
      | none =>
        unfold BoardShareRepository.CheckAccess
        rw [hAny, hS]
        rfl
      | some s =>
        exfalso
        unfold BoardShareRepository.CheckAccess at hV
        rw [hAny, hS] at hV
        simp at hV

/-- C2, witness: user 3 has no share on board 1 and is not its owner, so the
theorem's monotonicity part turns the viewer-level denial into an
editor-level denial. -/
theorem claim2_witness :
    BoardShareRepository.CheckAccess dbOneShare 1 3 RoleEditor = false :=
  (claim2 dbOneShare 1 3).2.2 (by decide)

/-- C10: board GetByID replies NotFound exactly when no board row with the
requested id exists, and replies existence-revealing Forbidden to an
authenticated principal who is neither the owner nor the holder of a share. -/
theorem claim10 (db : DB) (p bid : Nat) :
    (BoardRepository.GetByID db bid = none →
       BoardHandler.GetByID db p bid = .notFound) ∧
    (BoardHandler.GetByID db p bid = .notFound →
       BoardRepository.GetByID db bid = none) ∧
    (∀ board, BoardRepository.GetByID db bid = some board →
       (∀ b ∈ db.boards, b.id = bid → b.ownerID ≠ p) →
       findShare db bid p = none →
       BoardHandler.GetByID db p bid = .forbidden) := by
  refine ⟨?_, ?_, ?_⟩
  · intro h
    unfold BoardHandler.GetByID
    rw [h]
  · intro h
    cases hF : BoardRepository.GetByID db bid with
    | none => rfl
    | some board =>
      exfalso
      unfold BoardHandler.GetByID at h
      simp only [hF] at h
      by_cases ho : board.ownerID ≠ p
      · rw [if_pos ho] at h
        by_cases hc : BoardShareRepository.CheckAccess db bid p RoleViewer = true
        · rw [if_pos hc] at h
          exact HStatus.noConfusion h
        · rw [if_neg hc] at h
          exact HStatus.noConfusion h
      · rw [if_neg ho] at h
        exact HStatus.noConfusion h
  · intro board hF hOwn hS
    have hF' : db.boards.find? (fun b => b.id == bid) = some board := hF
    have hid : board.id = bid := by
      have := List.find?_some hF'
      simpa [beq_iff_eq] using this
    have hown : board.ownerID ≠ p :=
      hOwn board (List.mem_of_find?_eq_some hF') hid
    have hAcc := checkAccess_eq_false db bid p RoleViewer hOwn hS
    unfold BoardHandler.GetByID
    simp only [hF]
    rw [if_pos hown, hAcc]
    rfl

/-- C10, witness: user 3, with no share, asks for existing board 1 and gets
Forbidden. -/
theorem claim10_witness : BoardHandler.GetByID dbOneShare 3 1 = .forbidden :=
  (claim10 dbOneShare 3 1).2.2 ⟨1, "B", "", 1⟩ (by decide) (by decide) (by decide)

/-- C4: an authorized move whose target column exists on a different board is
answered with 400 Bad Request and the database — in particular every task
position — is left untouched. -/
theorem claim4 (db : DB) (p taskID rCid : Nat) (rPos : Int) (task : Task)
    (column targetColumn : Column) (board : Board)
    (hT : TaskRepository.GetByID db taskID = some task)
    (hC : ColumnRepository.GetByID db task.columnID = some column)
    (hB : BoardRepository.GetByID db column.boardID = some board)
    (hAuth : BoardShareRepository.CheckAccess db column.boardID p RoleEditor = true ∨
       board.ownerID = p)
    (hNe : rCid ≠ task.columnID)
    (hTC : ColumnRepository.GetByID db rCid = some targetColumn)
    (hX : targetColumn.boardID ≠ column.boardID) :
    TaskHandler.MoveTask db p taskID rCid rPos = (.badRequest, db) := by
  have hcond : ¬(BoardShareRepository.CheckAccess db column.boardID p RoleEditor = false ∧
      board.ownerID ≠ p) := by
    rcases hAuth with h | h
    · rw [h]
      simp
    · intro hc
      exact hc.2 h
  unfold TaskHandler.MoveTask
  simp only [hT, hC, hB, hTC]
  rw [if_neg hcond]
  simp [hNe, hX]

/-- C4, witness: moving the task on board 1 into board 2's column is rejected
with Bad Request and no change. -/
theorem claim4_witness :
    TaskHandler.MoveTask dbTwoBoards 1 21 12 0 = (.badRequest, dbTwoBoards) :=
  claim4 dbTwoBoards 1 21 12 0 ⟨21, 11, "t", "", none, 1, none, 0⟩
    ⟨11, 1, "a", 0⟩ ⟨12, 2, "b", 0⟩ ⟨1, "A", "", 1⟩
    (by decide) (by decide) (by decide) (Or.inr (by decide)) (by decide)
    (by decide) (by decide)

/-- C9: a principal who merely created the task — neither owner nor holder of
any share — may delete it (the delete handler's extra createdBy disjunct),
while the move and update handlers reply Forbidden to the same principal. -/
theorem claim9 (db : DB) (p taskID mCid : Nat) (mPos : Int)
    (rTitle rDescr : String) (rCid : Nat) (rdd rpos : Option Int)
    (task : Task) (column : Column) (board : Board)
    (hT : TaskRepository.GetByID db taskID = some task)
    (hC : ColumnRepository.GetByID db task.columnID = some column)
    (hB : BoardRepository.GetByID db column.boardID = some board)
    (hCreator : task.createdBy = p)
    (hOwn : ∀ b ∈ db.boards, b.id = column.boardID → b.ownerID ≠ p)
    (hS : findShare db column.boardID p = none) :
    TaskHandler.Delete db p taskID =
      (.ok, { db with tasks := db.tasks.filter (fun t => t.id != taskID) }) ∧
    TaskHandler.MoveTask db p taskID mCid mPos = (.forbidden, db) ∧
    TaskHandler.Update db p taskID rTitle rDescr rCid rdd rpos = (.forbidden, db) := by
  have hAcc := checkAccess_eq_false db column.boardID p RoleEditor hOwn hS
  have hB' : db.boards.find? (fun b => b.id == column.boardID) = some board := hB
  have hBid : board.id = column.boardID := by
    have := List.find?_some hB'
    simpa [beq_iff_eq] using this
  have hBOwn : board.ownerID ≠ p :=
    hOwn board (List.mem_of_find?_eq_some hB') hBid
  have hT' : db.tasks.find? (fun t => t.id == taskID) = some task := hT
  have hTid : task.id = taskID := by
    have := List.find?_some hT'
    simpa [beq_iff_eq] using this
  refine ⟨?_, ?_, ?_⟩
  · have hAnyT : db.tasks.any (fun t => t.id == taskID) = true :=
      List.any_eq_true.mpr ⟨task, List.mem_of_find?_eq_some hT', by simp [hTid]⟩
    unfold TaskHandler.Delete
    simp only [hT, hC, hB, hAcc]
    rw [if_neg (by
      intro hc
      exact hc.2.2 hCreator)]
    unfold TaskRepository.Delete
    rw [hAnyT]
    rfl
  · unfold TaskHandler.MoveTask
    simp only [hT, hC, hB, hAcc]
    rw [if_pos ⟨trivial, hBOwn⟩]
  · unfold TaskHandler.Update
    simp only [hT, hC, hB, hAcc]
    rw [if_pos ⟨trivial, hBOwn⟩]

/-- C9, witness: user 5, the creator of task 21 on a board they neither own
nor have a share on, deletes it successfully. -/
theorem claim9_witness :
    TaskHandler.Delete dbCreatorOnly 5 21 =
      (.ok, { dbCreatorOnly with tasks := [] }) ∧
    TaskHandler.MoveTask dbCreatorOnly 5 21 11 1 = (.forbidden, dbCreatorOnly) := by
  have h := claim9 dbCreatorOnly 5 21 11 1 "t" "" 11 none none
    ⟨21, 11, "t", "", none, 5, none, 0⟩ ⟨11, 1, "todo", 0⟩ ⟨1, "B", "", 1⟩
    (by decide) (by decide) (by decide) (by decide) (by decide) (by decide)
  exact ⟨h.1, h.2.1⟩

/-- C3: on a store with unique task ids, the repository MoveTask is exactly
the spec's per-item shift: cross-column moves close the source gap
(position > old gets -1) and open the target slot (position ≥ new gets +1),
same-column moves shift only the strict in-between range, an unchanged
position shifts nothing, and the moved task itself gets the target column and
position. -/
theorem claim3 (db : DB) (taskID columnID : Nat) (newPosition : Int) (task : Task)
    (hT : TaskRepository.GetByID db taskID = some task)
    (hN : (db.tasks.map Task.id).Nodup) :
    TaskRepository.MoveTask db taskID columnID newPosition =
      .ok { db with tasks := db.tasks.map (MoveTaskSpecShift task columnID newPosition) } := by
  have hT' : db.tasks.find? (fun t => t.id == taskID) = some task := hT
  have hTid : task.id = taskID := by
    have := List.find?_some hT'
    simpa [beq_iff_eq] using this
  have hMem : task ∈ db.tasks := List.mem_of_find?_eq_some hT'
  have hUniq : ∀ t ∈ db.tasks, t.id = taskID → t = task := by
    intro t ht hid
    exact List.inj_on_of_nodup_map hN ht hMem (by rw [hid, hTid])
  unfold TaskRepository.MoveTask
  simp only [hT]
  refine congrArg Except.ok (congrArg (fun l => { db with tasks := l }) ?_)
  by_cases h1 : task.columnID ≠ columnID
  · rw [if_pos h1]
    simp only [List.map_map]
    apply List.map_congr_left
    intro t ht
    simp only [Function.comp_apply]
    by_cases hid : t.id = taskID
    · have heq : t = task := hUniq t ht hid
      subst heq
      simp [MoveTaskSpecShift, hTid, h1, lt_irrefl]
    · have hidm : t.id ≠ task.id := fun h => hid (h.trans hTid)
      by_cases hsrc : t.columnID = task.columnID
      · have hntc : t.columnID ≠ columnID := by
          rw [hsrc]
          exact h1
        by_cases hgt : t.position > task.position
        · simp [MoveTaskSpecShift, hid, hidm, hsrc, hgt, hntc, h1, Ne.symm h1]
        · simp [MoveTaskSpecShift, hid, hidm, hsrc, hgt, hntc, h1, Ne.symm h1]
      · by_cases htc : t.columnID = columnID ∧ t.position ≥ newPosition
        · simp [MoveTaskSpecShift, hid, hidm, hsrc, htc, h1, Ne.symm h1,
            Ne.symm hsrc]
        · simp [MoveTaskSpecShift, hid, hidm, hsrc, htc, h1, Ne.symm h1]
  · have hcc : task.columnID = columnID := not_not.mp h1
    rw [if_neg h1]
    by_cases h2 : task.position < newPosition
    · rw [if_pos h2]
      simp only [List.map_map]
      apply List.map_congr_left
      intro t ht
      simp only [Function.comp_apply]
      by_cases hid : t.id = taskID
      · have heq : t = task := hUniq t ht hid
        subst heq
        simp [MoveTaskSpecShift, hTid, hcc, lt_irrefl, h2]
      · have hidm : t.id ≠ task.id := fun h => hid (h.trans hTid)
        by_cases hc : t.columnID = columnID ∧ task.position < t.position ∧
            t.position ≤ newPosition
        · simp [MoveTaskSpecShift, hid, hidm, hcc, hc, h2]
        · simp [MoveTaskSpecShift, hid, hidm, hcc, hc, h2]
    · by_cases h3 : task.position > newPosition
      · rw [if_neg h2, if_pos h3]
        simp only [List.map_map]
        apply List.map_congr_left
        intro t ht
        simp only [Function.comp_apply]
        by_cases hid : t.id = taskID
        · have heq : t = task := hUniq t ht hid
          subst heq
          simp [MoveTaskSpecShift, hTid, hcc, lt_irrefl, h2, h3]
        · have hidm : t.id ≠ task.id := fun h => hid (h.trans hTid)
          by_cases hc : t.columnID = columnID ∧ newPosition ≤ t.position ∧
              t.position < task.position
          · simp [MoveTaskSpecShift, hid, hidm, hcc, hc, h2, h3]
          · simp [MoveTaskSpecShift, hid, hidm, hcc, hc, h2, h3]
      · rw [if_neg h2, if_neg h3]
        apply List.map_congr_left
        intro t ht
        by_cases hid : t.id = taskID
        · have heq : t = task := hUniq t ht hid
          subst heq
          simp [MoveTaskSpecShift, hTid, hcc]
        · have hidm : t.id ≠ task.id := fun h => hid (h.trans hTid)
          simp [MoveTaskSpecShift, hid, hidm, hcc, h2, h3]

/-- C3, witness (spec §8 Scenario B): task 13 moves from column 1 position 2
to column 2 position 0; the source column re-compacts to [0,1] and the target
becomes [moved@0, old0@1, old1@2]. -/
theorem claim3_witness :
    (TaskRepository.MoveTask dbScenarioB 13 2 0 =
      .ok { dbScenarioB with
        tasks := dbScenarioB.tasks.map (MoveTaskSpecShift ⟨13, 1, "a2", "", none, 1, none, 2⟩ 2 0) }) ∧
    ((TaskRepository.MoveTask dbScenarioB 13 2 0).toOption.map
        (fun db => db.tasks.map (fun t => (t.id, t.columnID, t.position))) =
      some [(11, 1, 0), (12, 1, 1), (13, 2, 0), (21, 2, 1), (22, 2, 2)]) :=
  ⟨claim3 dbScenarioB 13 2 0 ⟨13, 1, "a2", "", none, 1, none, 2⟩ (by decide) (by decide),
   by decide⟩

/-- A function that fixes every member of a list maps it to itself. -/
theorem map_fix_of_mem {α : Type} (l : List α) (f : α → α) (h : ∀ a ∈ l, f a = a) :
    l.map f = l := by
  rw [List.map_congr_left h, List.map_id']

/-- A list whose find? comes up empty filters to the empty list. -/
theorem filter_nil_of_find?_none {α : Type} (p : α → Bool) (l : List α)
    (h : l.find? p = none) : l.filter p = [] :=
  List.filter_eq_nil_iff.mpr (List.find?_eq_none.mp h)

/-- The update half of the share upsert: rewriting the role of the found
share row (keyed on its primary key, under unique ids and at most one
matching row) preserves the id column, leaves exactly one matching row —
carrying the new role — and that row is the one find? returns. -/
theorem shareUpdate_characterization (bid uid : Nat) (r : String) :
    ∀ (l : List BoardShare) (s0 : BoardShare),
    l.find? (fun s => s.boardID == bid && s.userID == uid) = some s0 →
    (l.filter (fun s => s.boardID == bid && s.userID == uid)).length ≤ 1 →
    (l.map BoardShare.id).Nodup →
    ((l.map (fun s => if s.id = s0.id then { s0 with role := r } else s)).map BoardShare.id
        = l.map BoardShare.id) ∧
    ((l.map (fun s => if s.id = s0.id then { s0 with role := r } else s)).filter
        (fun s => s.boardID == bid && s.userID == uid) = [{ s0 with role := r }]) ∧
    ((l.map (fun s => if s.id = s0.id then { s0 with role := r } else s)).find?
        (fun s => s.boardID == bid && s.userID == uid) = some { s0 with role := r }) := by
  intro l
  induction l with
  | nil =>
    intro s0 hf
    exact absurd hf (by simp)
  | cons x xs ih =>
    intro s0 hf hlen hids
    have hids' : x.id ∉ xs.map BoardShare.id ∧ (xs.map BoardShare.id).Nodup := by
      rw [List.map_cons] at hids
      exact List.nodup_cons.mp hids
    by_cases px : (x.boardID == bid && x.userID == uid) = true
    · have hs0 : s0 = x := by
        rw [@List.find?_cons_of_pos BoardShare
          (fun s => s.boardID == bid && s.userID == uid) x xs px] at hf
        exact (Option.some_inj.mp hf).symm
      subst hs0
      have hxs : ∀ y ∈ xs, y.id ≠ s0.id := by
        intro y hy heq
        exact hids'.1 (heq ▸ List.mem_map_of_mem BoardShare.id hy)
      have hmapxs : xs.map (fun s => if s.id = s0.id then { s0 with role := r } else s) = xs :=
        map_fix_of_mem xs _ (fun y hy => if_neg (hxs y hy))
      have hfilxs : xs.filter (fun s => s.boardID == bid && s.userID == uid) = [] := by
        have hc : (s0 :: xs).filter (fun s => s.boardID == bid && s.userID == uid) =
            s0 :: xs.filter (fun s => s.boardID == bid && s.userID == uid) := by
          simp [List.filter_cons, px]
        rw [hc] at hlen
        simp only [List.length_cons] at hlen
        exact List.length_eq_zero.mp (by omega)
      refine ⟨?_, ?_, ?_⟩
      · simp [hmapxs]
      · simp only [List.map_cons, hmapxs, if_pos rfl]
        rw [List.filter_cons, if_pos (show _ = true by simpa using px), hfilxs]
        simp
      · simp only [List.map_cons, hmapxs, if_pos rfl]
        exact @List.find?_cons_of_pos BoardShare
          (fun s => s.boardID == bid && s.userID == uid) { s0 with role := r } xs
          (by simpa using px)
    · have hf' : xs.find? (fun s => s.boardID == bid && s.userID == uid) = some s0 := by
        rwa [@List.find?_cons_of_neg BoardShare
          (fun s => s.boardID == bid && s.userID == uid) x xs px] at hf
      have hs0mem : s0 ∈ xs := List.mem_of_find?_eq_some hf'
      have hxne : x.id ≠ s0.id := by
        intro heq
        exact hids'.1 (heq ▸ List.mem_map_of_mem BoardShare.id hs0mem)
      have hlen' : (xs.filter (fun s => s.boardID == bid && s.userID == uid)).length ≤ 1 := by
        rwa [List.filter_cons, if_neg px] at hlen
      obtain ⟨ih1, ih2, ih3⟩ := ih s0 hf' hlen' hids'.2
      refine ⟨?_, ?_, ?_⟩
      · simp only [List.map_cons, if_neg hxne, ih1]
      · rw [List.map_cons, if_neg hxne, List.filter_cons, if_neg px, ih2]
      · rw [List.map_cons, if_neg hxne,
          @List.find?_cons_of_neg BoardShare
            (fun s => s.boardID == bid && s.userID == uid) x
            (xs.map (fun s => if s.id = s0.id then { s0 with role := r } else s)) px,
          ih3]

/-- The shares table produced by one ShareBoard call, by branch: an existing
(board, user) row is role-updated in place (keyed on its id), otherwise a
fresh row is appended. -/
theorem shareBoard_shares (db : DB) (bid uid : Nat) (r : String) (n : Nat) :
    (BoardShareRepository.ShareBoard db bid uid r n).shares =
      match findShare db bid uid with
      | some s0 => db.shares.map (fun s => if s.id = s0.id then { s0 with role := r } else s)
      | none => db.shares ++ [⟨n, bid, uid, r⟩] := by
  unfold BoardShareRepository.ShareBoard
  cases findShare db bid uid <;> rfl

/-- C5: starting from a store with at most one share row for (board, user)
(the unique-constraint invariant) and unique row ids, sharing the same board
with the same user twice — with any two roles — leaves exactly one share row
for that pair, and it carries the role of the second request: the first call
upserts (insert or role update) and the second finds the row and updates its
role in place. -/
theorem claim5 (db : DB) (bid uid : Nat) (r1 r2 : String) (n1 n2 : Nat)
    (hOne : (db.shares.filter (fun s => s.boardID == bid && s.userID == uid)).length ≤ 1)
    (hIds : (db.shares.map BoardShare.id).Nodup)
    (hFresh : n1 ∉ db.shares.map BoardShare.id) :
    ((BoardShareRepository.ShareBoard
        (BoardShareRepository.ShareBoard db bid uid r1 n1) bid uid r2 n2).shares.filter
          (fun s => s.boardID == bid && s.userID == uid)).map BoardShare.role = [r2] := by
  cases hF : findShare db bid uid with
  | none =>
    have hF' : db.shares.find? (fun s => s.boardID == bid && s.userID == uid) = none := hF
    have hsh1 : (BoardShareRepository.ShareBoard db bid uid r1 n1).shares =
        db.shares ++ [⟨n1, bid, uid, r1⟩] := by
      rw [shareBoard_shares, hF]
    have hfind2 : findShare (BoardShareRepository.ShareBoard db bid uid r1 n1) bid uid =
        some (⟨n1, bid, uid, r1⟩ : BoardShare) := by
      unfold findShare
      rw [hsh1, List.find?_append, hF']
      simp [List.find?]
    have e1 : (BoardShareRepository.ShareBoard
        (BoardShareRepository.ShareBoard db bid uid r1 n1) bid uid r2 n2).shares =
        (db.shares ++ [(⟨n1, bid, uid, r1⟩ : BoardShare)]).map
          (fun (s : BoardShare) => if s.id = ((⟨n1, bid, uid, r1⟩ : BoardShare)).id then
            { (⟨n1, bid, uid, r1⟩ : BoardShare) with role := r2 } else s) := by
      rw [shareBoard_shares, hfind2, hsh1]
    have hmapl : db.shares.map
        (fun (s : BoardShare) => if s.id = ((⟨n1, bid, uid, r1⟩ : BoardShare)).id then
          { (⟨n1, bid, uid, r1⟩ : BoardShare) with role := r2 } else s) = db.shares := by
      apply map_fix_of_mem
      intro y hy
      refine if_neg ?_
      intro heq
      apply hFresh
      have hy' : y.id = n1 := heq
      exact hy' ▸ List.mem_map_of_mem BoardShare.id hy
    rw [e1, List.map_append, hmapl, List.filter_append,
      filter_nil_of_find?_none _ _ hF']
    simp
  | some s0 =>
    have hF' : db.shares.find? (fun s => s.boardID == bid && s.userID == uid) = some s0 := hF
    obtain ⟨h1ids, h1fil, h1find⟩ :=
      shareUpdate_characterization bid uid r1 db.shares s0 hF' hOne hIds
    have hsh1 : (BoardShareRepository.ShareBoard db bid uid r1 n1).shares =
        db.shares.map (fun s => if s.id = s0.id then { s0 with role := r1 } else s) := by
      rw [shareBoard_shares, hF]
    have hfind2 : findShare (BoardShareRepository.ShareBoard db bid uid r1 n1) bid uid =
        some ({ s0 with role := r1 } : BoardShare) := by
      unfold findShare
      rw [hsh1]
      exact h1find
    have hOne2 : ((db.shares.map
        (fun s => if s.id = s0.id then { s0 with role := r1 } else s)).filter
          (fun s => s.boardID == bid && s.userID == uid)).length ≤ 1 := by
      rw [h1fil]
      simp
    have hIds2 : ((db.shares.map
        (fun s => if s.id = s0.id then { s0 with role := r1 } else s)).map
          BoardShare.id).Nodup := by
      rw [h1ids]
      exact hIds
    obtain ⟨h2ids, h2fil, h2find⟩ := shareUpdate_characterization bid uid r2
      (db.shares.map (fun s => if s.id = s0.id then { s0 with role := r1 } else s))
      ({ s0 with role := r1 }) h1find hOne2 hIds2
    have e1 : (BoardShareRepository.ShareBoard
        (BoardShareRepository.ShareBoard db bid uid r1 n1) bid uid r2 n2).shares =
        (db.shares.map (fun s => if s.id = s0.id then { s0 with role := r1 } else s)).map
          (fun s => if s.id = ({ s0 with role := r1 } : BoardShare).id then
            { ({ s0 with role := r1 } : BoardShare) with role := r2 } else s) := by
      rw [shareBoard_shares, hfind2, hsh1]
    rw [e1, h2fil]
    simp


/-- C5, witness: sharing board 1 with user 2 as viewer and then as editor, on
a database with no shares, leaves exactly one share row for the pair and its
role is editor. -/
theorem claim5_witness :
    ((BoardShareRepository.ShareBoard
        (BoardShareRepository.ShareBoard dbNoShares 1 2 RoleViewer 50) 1 2 RoleEditor 51).shares.filter
          (fun s => s.boardID == 1 && s.userID == 2)).map BoardShare.role = [RoleEditor] :=
  claim5 dbNoShares 1 2 RoleViewer RoleEditor 50 51 (by decide) (by decide) (by decide)

end Kanban
